import Mathlib

/-!
Verification of the scribd-pdf-downloader acquisition/reconstruction engine.

The definitions below are shallow embeddings of the Python source:

* `src/scribdl/scribdl.py` — the static retriever: `get_doc_id`,
  `sanitize_title`, the `target_url` selection inside `get_scribd_document`,
  and the legacy-vs-structured descriptor-discovery branch.
* `src/scribdl/selenium_downloader.py` — the dynamic (Selenium) downloader:
  `_extract_doc_id`, the `_auto_scroll_and_load` loop, the per-page capture
  loop of `download_as_pdf`, `_merge_pdfs`, and the post-merge cleanup phase.

Machine strings are `String`/`List Char`; the browser environment (reported
heights, scroll offsets, materialized page counts, the cancellation callback,
and the success of capture attempts, removals, and the merge) is modelled as
explicit input sequences, so every loop becomes a fuel-indexed recursion on
those inputs.
-/

/-! ## Locator: `get_doc_id` (scribdl.py lines 238-260) and
`ScribdSeleniumDownloader._extract_doc_id` (selenium_downloader.py lines
519-545).

Both functions run `re.search(r'(?:doc|document|embeds)/(\d+)', url)` and
return `match.group(1)` or `None`.  The regex engine is modelled directly:
`re.search` finds the leftmost position at which one of the three literals,
a `/`, and a maximal nonempty run of digits match; `\d` is modelled as the
ASCII digits that occur in URLs. -/

/-- Boolean list-prefix test, used to model matching a regex literal at a
position. -/
def isPre : List Char → List Char → Bool
  | [], _ => true
  | _ :: _, [] => false
  | a :: as, b :: bs => if a = b then isPre as bs else false

/-- Match one alternative `lit/(\d+)` of the regex at the head of `l`:
the literal, a slash, then a maximal nonempty digit run (the capture
group). -/
def tryLit (lit : List Char) (l : List Char) : Option (List Char) :=
  if isPre (lit ++ ['/']) l then
    let ds := (l.drop (lit.length + 1)).takeWhile fun c => c.isDigit
    if ds.isEmpty then none else some ds
  else none

/-- The three literals of the regex `(?:doc|document|embeds)/(\d+)`. -/
def docIdRegexLits : List (List Char) :=
  [['d', 'o', 'c'], ['d', 'o', 'c', 'u', 'm', 'e', 'n', 't'],
   ['e', 'm', 'b', 'e', 'd', 's']]

/-- Try the regex alternation at the head of `l` (Python tries the
alternatives in written order; at any one position at most one can reach
the `/`). -/
def matchHere (l : List Char) : Option (List Char) :=
  match tryLit ['d', 'o', 'c'] l with
  | some r => some r
  | none =>
    match tryLit ['d', 'o', 'c', 'u', 'm', 'e', 'n', 't'] l with
    | some r => some r
    | none => tryLit ['e', 'm', 'b', 'e', 'd', 's'] l

/-- `re.search`: scan positions left to right, return the first match. -/
def searchFrom : List Char → Option (List Char)
  | [] => none
  | c :: t =>
    match matchHere (c :: t) with
    | some r => some r
    | none => searchFrom t

/-- `scribdl.get_doc_id` (scribdl.py lines 238-260): the captured digit
group of the leftmost regex match, or `None`. -/
def get_doc_id (url : String) : Option String :=
  (searchFrom url.data).map String.mk

/-- `ScribdSeleniumDownloader._extract_doc_id` (selenium_downloader.py lines
519-545) runs the character-for-character identical
`re.search(r'(?:doc|document|embeds)/(\d+)', url)`; it is embedded by its
own copy of the search recursion. -/
def selSearchFrom : List Char → Option (List Char)
  | [] => none
  | c :: t =>
    match matchHere (c :: t) with
    | some r => some r
    | none => selSearchFrom t

/-- `ScribdSeleniumDownloader._extract_doc_id`. -/
def extract_doc_id (url : String) : Option String :=
  (selSearchFrom url.data).map String.mk

/-! ## Title sanitizer: `sanitize_title` (scribdl.py lines 227-235). -/

/-- The forbidden characters, in the order the source iterates them. -/
def forbidden_chars : List Char :=
  [' ', '*', '"', '/', '\\', '<', '>', ':', '|', '?']

/-- Python `str.replace(old, new)` for one-character `old` and `new`:
replace every occurrence. -/
def replaceChar (s : List Char) (old repl : Char) : List Char :=
  s.map fun c => if c = old then repl else c

/-- `scribdl.sanitize_title` (scribdl.py lines 227-235): sequentially
replace each forbidden character with an underscore. -/
def sanitize_title (title : String) : String :=
  String.mk (forbidden_chars.foldl (fun s ch => replaceChar s ch '_') title.data)

/-! ## Lemmas about the sanitizer -/

/-- Sequentially replacing each character of `cs` by `'_'` is the pointwise
substitution, provided `'_'` itself is never a replaced character. -/
lemma foldl_replaceChar (cs : List Char) (l : List Char) (h : '_' ∉ cs) :
    cs.foldl (fun s ch => replaceChar s ch '_') l
      = l.map fun c => if c ∈ cs then '_' else c := by
  induction cs generalizing l with
  | nil => simp
  | cons c cs ih =>
    have hc : ('_' : Char) ≠ c := fun hu => h (hu ▸ List.mem_cons_self c cs)
    have hcs : '_' ∉ cs := fun hu => h (List.mem_cons_of_mem c hu)
    rw [List.foldl_cons, ih _ hcs]
    unfold replaceChar
    rw [List.map_map]
    refine List.map_congr_left fun x _ => ?_
    by_cases hx : x = c
    · subst hx
      simp [if_neg (Ne.symm hc)]
    · simp [Function.comp, hx]

/-- The pointwise form of `sanitize_title`. -/
lemma sanitize_title_eq_map (t : String) :
    sanitize_title t
      = String.mk (t.data.map fun c => if c ∈ forbidden_chars then '_' else c) := by
  unfold sanitize_title
  rw [foldl_replaceChar _ _ (by decide)]

/-- C2: `sanitize_title` replaces exactly the ten forbidden characters by
`'_'`, leaves every other character unchanged, preserves the length of every
title, and is idempotent. -/
theorem sanitize_title_spec (t : String) :
    (sanitize_title t).data
        = (t.data.map fun c => if c ∈ forbidden_chars then '_' else c)
    ∧ (sanitize_title t).length = t.length
    ∧ sanitize_title (sanitize_title t) = sanitize_title t := by
  refine ⟨by rw [sanitize_title_eq_map], ?_, ?_⟩
  · rw [sanitize_title_eq_map]
    show (t.data.map _).length = t.data.length
    exact List.length_map _ _
  · rw [sanitize_title_eq_map t, sanitize_title_eq_map]
    refine congrArg String.mk ?_
    show (t.data.map _).map _ = t.data.map _
    rw [List.map_map]
    refine List.map_congr_left fun x _ => ?_
    by_cases hx : x ∈ forbidden_chars
    · simp [Function.comp, hx]
    · simp [Function.comp, hx]

/-! ## Lemmas about the locator -/

lemma isPre_append (xs ys : List Char) : isPre xs (xs ++ ys) = true := by
  induction xs with
  | nil => rfl
  | cons a as ih => simp [isPre, ih]

lemma takeWhile_digits (ds rest : List Char) (hds : ∀ c ∈ ds, c.isDigit = true)
    (hrest : ∀ c ∈ rest.take 1, c.isDigit = false) :
    (ds ++ rest).takeWhile (fun c => c.isDigit) = ds := by
  induction ds with
  | nil =>
    cases rest with
    | nil => rfl
    | cons r rs =>
      have hr : r.isDigit = false := hrest r (by simp)
      simp [List.takeWhile_cons, hr]
  | cons d ds ih =>
    have hd : d.isDigit = true := hds d (List.mem_cons_self _ _)
    rw [List.cons_append, List.takeWhile_cons]
    simp only [hd, if_true]
    rw [ih (fun c hc => hds c (List.mem_cons_of_mem _ hc))]

/-- A successful alternative: the literal, the slash, then the maximal
digit run is captured. -/
lemma tryLit_success (lit ds rest : List Char) (hne : ds ≠ [])
    (hds : ∀ c ∈ ds, c.isDigit = true)
    (hrest : ∀ c ∈ rest.take 1, c.isDigit = false) :
    tryLit lit (lit ++ '/' :: (ds ++ rest)) = some ds := by
  have h1 : lit ++ '/' :: (ds ++ rest) = (lit ++ ['/']) ++ (ds ++ rest) := by simp
  have h2 : isPre (lit ++ ['/']) (lit ++ '/' :: (ds ++ rest)) = true := by
    rw [h1]; exact isPre_append _ _
  have h3 : (lit ++ '/' :: (ds ++ rest)).drop (lit.length + 1) = ds ++ rest := by
    rw [h1]
    have hl : lit.length + 1 = (lit ++ ['/']).length := by simp
    rw [hl, List.drop_left]
  have h4 : ds.isEmpty = false := by cases ds with
    | nil => exact absurd rfl hne
    | cons d ds => rfl
  rw [tryLit]
  simp only [h2, if_true, h3, takeWhile_digits ds rest hds hrest, h4,
    Bool.false_eq_true, if_false]

lemma matchHere_at_lit (lit : List Char) (hlit : lit ∈ docIdRegexLits)
    (ds rest : List Char) (hne : ds ≠ [])
    (hds : ∀ c ∈ ds, c.isDigit = true)
    (hrest : ∀ c ∈ rest.take 1, c.isDigit = false) :
    matchHere (lit ++ '/' :: (ds ++ rest)) = some ds := by
  have hsucc := tryLit_success lit ds rest hne hds hrest
  simp only [docIdRegexLits, List.mem_cons, List.mem_singleton,
    List.not_mem_nil, or_false] at hlit
  rcases hlit with rfl | rfl | rfl
  · rw [matchHere, hsucc]
  · have hdoc : tryLit ['d', 'o', 'c']
        (['d', 'o', 'c', 'u', 'm', 'e', 'n', 't'] ++ '/' :: (ds ++ rest)) = none := by
      simp [tryLit, isPre]
    rw [matchHere, hdoc, hsucc]
  · have hdoc : tryLit ['d', 'o', 'c']
        (['e', 'm', 'b', 'e', 'd', 's'] ++ '/' :: (ds ++ rest)) = none := by
      simp [tryLit, isPre]
    have hdocu : tryLit ['d', 'o', 'c', 'u', 'm', 'e', 'n', 't']
        (['e', 'm', 'b', 'e', 'd', 's'] ++ '/' :: (ds ++ rest)) = none := by
      simp [tryLit, isPre]
    rw [matchHere, hdoc, hdocu, hsucc]

lemma matchHere_nil : matchHere [] = none := rfl

/-- If no suffix of `l` matches at its head, the scan fails. -/
lemma searchFrom_none (l : List Char) (h : ∀ t ∈ l.tails, matchHere t = none) :
    searchFrom l = none := by
  induction l with
  | nil => rfl
  | cons c t ih =>
    have h0 : matchHere (c :: t) = none :=
      h _ ((List.mem_tails _ _).mpr (List.suffix_refl _))
    rw [searchFrom, h0]
    exact ih fun t' ht' =>
      h t' ((List.mem_tails _ _).mpr
        (((List.mem_tails _ _).mp ht').trans (List.suffix_cons c t)))

/-- If the suffix `s` matches at its head and every strictly longer suffix
fails, the scan returns exactly `s`'s capture: `re.search` is leftmost. -/
lemma searchFrom_some (l : List Char) (s r : List Char) (hs : s ∈ l.tails)
    (hm : matchHere s = some r)
    (hleft : ∀ t ∈ l.tails, s.length < t.length → matchHere t = none) :
    searchFrom l = some r := by
  induction l with
  | nil =>
    have hnil : s = [] := by simpa using hs
    rw [hnil, matchHere_nil] at hm
    exact absurd hm (by simp)
  | cons c t ih =>
    rcases List.suffix_cons_iff.mp ((List.mem_tails _ _).mp hs) with heq | hsuf
    · rw [heq] at hm
      rw [searchFrom, hm]
    · have hlen : s.length < (c :: t).length :=
        lt_of_le_of_lt hsuf.length_le (by simp)
      have h0 : matchHere (c :: t) = none :=
        hleft _ ((List.mem_tails _ _).mpr (List.suffix_refl _)) hlen
      rw [searchFrom, h0]
      exact ih ((List.mem_tails _ _).mpr hsuf) fun t' ht' hl =>
        hleft t' ((List.mem_tails _ _).mpr
          (((List.mem_tails _ _).mp ht').trans (List.suffix_cons c t))) hl

/-- C1 (amended): `get_doc_id` is the leftmost-substring regex search: it
fails exactly when no suffix of the URL starts with `literal/digits`; when
the leftmost such occurrence exists its maximal digit run is returned, the
same way for each of the three literals. -/
theorem get_doc_id_spec :
    (∀ url : String, (∀ t ∈ url.data.tails, matchHere t = none) →
      get_doc_id url = none)
    ∧ (∀ (url : String) (s r : List Char), s ∈ url.data.tails →
        matchHere s = some r →
        (∀ t ∈ url.data.tails, s.length < t.length → matchHere t = none) →
        get_doc_id url = some (String.mk r))
    ∧ (∀ lit ∈ docIdRegexLits, ∀ ds rest : List Char, ds ≠ [] →
        (∀ c ∈ ds, c.isDigit = true) → (∀ c ∈ rest.take 1, c.isDigit = false) →
        matchHere (lit ++ '/' :: (ds ++ rest)) = some ds) := by
  refine ⟨?_, ?_, ?_⟩
  · intro url h
    unfold get_doc_id
    rw [searchFrom_none _ h]
    rfl
  · intro url s r hs hm hleft
    unfold get_doc_id
    rw [searchFrom_some _ s r hs hm hleft]
    rfl
  · intro lit hlit ds rest hne hds hrest
    exact matchHere_at_lit lit hlit ds rest hne hds hrest

/-- C1 witness: the amended characterisation applied at the spec's own
Example 1 URL and Example 2 URL. -/
theorem get_doc_id_spec_witness :
    get_doc_id "https://www.scribd.com/document/799698609/Price-Action"
      = some "799698609"
    ∧ get_doc_id "https://example.com/notadoc" = none := by
  constructor
  · exact get_doc_id_spec.2.1
      "https://www.scribd.com/document/799698609/Price-Action"
      ("document/799698609/Price-Action".data) ("799698609".data)
      (by decide) (by decide) (by decide)
  · exact get_doc_id_spec.1 "https://example.com/notadoc" (by decide)

/-- Transcribes the claim's reading of the recognized shapes: some path
segment (splitting the URL on `/`) is exactly `doc`, `document` or `embeds`
and the following segment is a nonempty run of digits.  Used only to state
the counterexample to that reading. -/
def splitSlash : List Char → List (List Char)
  | [] => [[]]
  | c :: t =>
    let r := splitSlash t
    if c = '/' then [] :: r
    else
      match r with
      | [] => [[c]]
      | seg :: rest => (c :: seg) :: rest

/-- The claim's "literal path segment followed by a numeric identifier
segment" predicate, written from the claim's words. -/
def specHasLiteralNumericSegment (url : String) : Bool :=
  let segs := splitSlash url.data
  (segs.zip segs.tail).any fun p =>
    (p.1 == ['d', 'o', 'c'] || p.1 == ['d', 'o', 'c', 'u', 'm', 'e', 'n', 't']
      || p.1 == ['e', 'm', 'b', 'e', 'd', 's'])
    && !p.2.isEmpty && p.2.all fun c => c.isDigit

/-- C1 counterexample: `https://x.com/mydoc/123` has no `doc`/`document`/
`embeds` path segment, yet `get_doc_id` extracts `123`, because the regex
match is substring-based, not segment-based. -/
theorem get_doc_id_counterexample :
    specHasLiteralNumericSegment "https://x.com/mydoc/123" = false
    ∧ get_doc_id "https://x.com/mydoc/123" = some "123" :=
  ⟨by decide, by decide⟩

/-! ## C10: the two extractors compute the same function. -/

lemma selSearchFrom_eq (l : List Char) : selSearchFrom l = searchFrom l := by
  induction l with
  | nil => rfl
  | cons c t ih =>
    rw [selSearchFrom, searchFrom]
    cases hm : matchHere (c :: t) with
    | some r => rfl
    | none => exact ih

/-- C10: `get_doc_id` (static module) and
`ScribdSeleniumDownloader._extract_doc_id` (dynamic module) run the
identical regex search, so they agree on every URL: both produce the same
id or both fail. -/
theorem extract_doc_id_eq_get_doc_id (url : String) :
    extract_doc_id url = get_doc_id url := by
  unfold extract_doc_id get_doc_id
  rw [selSearchFrom_eq]

/-! ## Canonical endpoint selection (C7).

`get_scribd_document` (scribdl.py lines 262-278) computes the URL it
fetches: the canonical embed endpoint for `html` mode, the raw input URL
for `text` and `images` modes.  The Selenium downloader
(selenium_downloader.py lines 276-284 and 480-488) always loads the
canonical embed endpoint. -/

/-- The canonical content endpoint `embeds/<id>/content`. -/
def canonicalUrl (docId : String) : String :=
  "https://www.scribd.com/embeds/" ++ docId ++ "/content"

/-- The `target_url` computed by `get_scribd_document` before its HTTP
fetch (scribdl.py lines 265-275); `none` when the id extraction fails. -/
def target_url (url mode : String) : Option String :=
  (get_doc_id url).map fun docId =>
    if mode = "html" then canonicalUrl docId else url

/-- The `embed_url` loaded by `download_as_pdf` / `download_as_html`
(selenium_downloader.py lines 276-284, 480-488). -/
def selenium_embed_url (url : String) : Option String :=
  (extract_doc_id url).map canonicalUrl

/-- C7 (amended): when the id extraction succeeds, the static retriever
fetches the canonical endpoint only in `html` mode and fetches the raw
input URL in every other mode, while the dynamic downloader always loads
the canonical endpoint. -/
theorem target_url_spec (url docId mode : String)
    (h : get_doc_id url = some docId) :
    (mode = "html" → target_url url mode = some (canonicalUrl docId))
    ∧ (mode ≠ "html" → target_url url mode = some url)
    ∧ selenium_embed_url url = some (canonicalUrl docId) := by
  have h2 : extract_doc_id url = some docId := by
    unfold extract_doc_id
    rw [selSearchFrom_eq]
    exact h
  refine ⟨?_, ?_, ?_⟩
  · intro hm
    unfold target_url
    rw [h]
    simp [hm]
  · intro hm
    unfold target_url
    rw [h]
    simp [hm]
  · unfold selenium_embed_url
    rw [h2]
    rfl

/-- C7 witness: the amended statement applied at a concrete embed URL in
`html` and `text` modes. -/
theorem target_url_spec_witness :
    target_url "https://www.scribd.com/embeds/42/content" "html"
      = some (canonicalUrl "42")
    ∧ target_url "https://www.scribd.com/embeds/42/content" "text"
      = some "https://www.scribd.com/embeds/42/content"
    ∧ selenium_embed_url "https://www.scribd.com/embeds/42/content"
      = some (canonicalUrl "42") := by
  refine ⟨?_, ?_, ?_⟩
  · exact (target_url_spec _ "42" "html" (by decide)).1 rfl
  · exact (target_url_spec _ "42" "text" (by decide)).2.1 (by decide)
  · exact (target_url_spec _ "42" "text" (by decide)).2.2

/-- C7 counterexample: in `text` mode the static retriever fetches the
supplied `document/` URL itself, which is not the canonical embed
endpoint. -/
theorem target_url_counterexample :
    get_doc_id "https://www.scribd.com/document/799698609/Price-Action"
      = some "799698609"
    ∧ target_url "https://www.scribd.com/document/799698609/Price-Action" "text"
      = some "https://www.scribd.com/document/799698609/Price-Action"
    ∧ ¬ ("https://www.scribd.com/document/799698609/Price-Action"
        = canonicalUrl "799698609") :=
  ⟨by decide, by decide, by decide⟩

/-! ## Descriptor discovery branch (C9).

scribdl.py lines 340-385: the scripts are scanned once; if any script body
contains both `window.page` and `_callback` the legacy inline-URL
extraction runs, otherwise the structured `contentUrl` extraction runs. -/

/-- Substring test, modelling Python's `in` on strings. -/
def strContains (pat l : List Char) : Bool :=
  l.tails.any fun t => isPre pat t

/-- The detection test at scribdl.py lines 342-345 for one script
(`s.string` is `None` for scripts without a direct string body). -/
def script_has_legacy (s : Option String) : Bool :=
  match s with
  | none => false
  | some str =>
    strContains ("window.page".data) str.data
      && strContains ("_callback".data) str.data

/-- `has_legacy_callback` (scribdl.py lines 341-345). -/
def has_legacy_callback (scripts : List (Option String)) : Bool :=
  scripts.any script_has_legacy

inductive DiscoveryBranch where
  | legacy
  | structured
deriving DecidableEq

/-- The if/else at scribdl.py lines 347-366: exactly one of the two
extraction forms runs. -/
def discovery_branch (scripts : List (Option String)) : DiscoveryBranch :=
  if has_legacy_callback scripts then DiscoveryBranch.legacy
  else DiscoveryBranch.structured

/-- A `window.page<N>_callback` marker (the claim's legacy marker) at the
head of `l`: the literal `window.page`, a nonempty digit run, then the
literal `_callback`. -/
def markerAt (l : List Char) : Bool :=
  isPre ("window.page".data) l
    && !((l.drop ("window.page".data.length)).takeWhile fun c =>
          c.isDigit).isEmpty
    && isPre ("_callback".data)
        ((l.drop ("window.page".data.length)).drop
          ((l.drop ("window.page".data.length)).takeWhile fun c =>
            c.isDigit).length)

/-- Some script position carries a `window.page<N>_callback` marker. -/
def hasLegacyMarker (s : String) : Bool := s.data.tails.any markerAt

lemma markerAt_strContains (s t : List Char) (ht : t ∈ s.tails)
    (hm : markerAt t = true) :
    strContains ("window.page".data) s = true
    ∧ strContains ("_callback".data) s = true := by
  rw [markerAt, Bool.and_eq_true, Bool.and_eq_true] at hm
  obtain ⟨⟨h1, _⟩, h3⟩ := hm
  have hts : t <:+ s := (List.mem_tails _ _).mp ht
  constructor
  · rw [strContains, List.any_eq_true]
    exact ⟨t, ht, h1⟩
  · rw [strContains, List.any_eq_true]
    refine ⟨_, (List.mem_tails _ _).mpr ?_, h3⟩
    exact ((List.drop_suffix _ _).trans (List.drop_suffix _ t)).trans hts

lemma hasLegacyMarker_script (s : String) (h : hasLegacyMarker s = true) :
    script_has_legacy (some s) = true := by
  rw [hasLegacyMarker, List.any_eq_true] at h
  obtain ⟨t, ht, hm⟩ := h
  obtain ⟨h1, h2⟩ := markerAt_strContains s.data t ht hm
  simp [script_has_legacy, h1, h2]

/-- C9: if any script carries a `window.page<N>_callback` marker, discovery
takes the legacy branch (the structured `contentUrl` form is not
consulted); the structured branch runs only when no script carries such a
marker. -/
theorem legacy_precedence_spec (scripts : List (Option String)) :
    ((∃ s : String, some s ∈ scripts ∧ hasLegacyMarker s = true) →
      discovery_branch scripts = DiscoveryBranch.legacy)
    ∧ (discovery_branch scripts = DiscoveryBranch.structured →
        ∀ s : String, some s ∈ scripts → hasLegacyMarker s = false) := by
  constructor
  · rintro ⟨s, hmem, hmark⟩
    have hleg : has_legacy_callback scripts = true := by
      rw [has_legacy_callback, List.any_eq_true]
      exact ⟨some s, hmem, hasLegacyMarker_script s hmark⟩
    simp [discovery_branch, hleg]
  · intro hstruct s hmem
    by_contra hmark
    rw [Bool.not_eq_false] at hmark
    have hleg : has_legacy_callback scripts = true := by
      rw [has_legacy_callback, List.any_eq_true]
      exact ⟨some s, hmem, hasLegacyMarker_script s hmark⟩
    rw [discovery_branch, if_pos hleg] at hstruct
    exact DiscoveryBranch.noConfusion hstruct

/-- C9 witness: a script with a real marker forces the legacy branch; a
marker-free document takes the structured branch. -/
theorem legacy_precedence_witness :
    discovery_branch [some "window.page1_callback(x);"]
      = DiscoveryBranch.legacy
    ∧ hasLegacyMarker "var y = 1;" = false := by
  constructor
  · exact (legacy_precedence_spec _).1
      ⟨"window.page1_callback(x);", by simp, by decide⟩
  · exact (legacy_precedence_spec [some "var y = 1;"]).2 (by decide) _ (by simp)

/-! ## Lazy-load driver: `_auto_scroll_and_load` (selenium_downloader.py
lines 104-162).

The loop reads the browser at every iteration: the cancellation callback,
the page count before and after the 800 px scroll, then
`document.body.scrollHeight` and `window.pageYOffset`.  Those reads are the
environment, indexed by the iteration number.  The loop body updates
`scroll_position` (+800), `page_count` and `no_new_content_count`, and
exits when `(pos + 1080 >= height and no_new_content_count >= 3)` — the
1080 is the fixed window height — `or (scroll_position >= height)`.
`trace` records `no_new_content_count` after each executed iteration. -/

structure ScrollEnv where
  stop : Nat → Bool
  pagesBefore : Nat → Nat
  pagesAfter : Nat → Nat
  height : Nat → Nat
  pos : Nat → Nat

structure ScrollState where
  scroll_position : Nat
  page_count : Nat
  no_new_content_count : Nat
  trace : List Nat
deriving DecidableEq

structure ScrollResult where
  stoppedByUser : Bool
  condA : Bool
  condB : Bool
  page_count : Nat
  no_new_content_count : Nat
  scroll_position : Nat
  trace : List Nat
deriving DecidableEq

/-- Exit test (a): at the bottom and three scrolls without new content. -/
def scrollCondA (h p cnt : Nat) : Bool :=
  decide (h ≤ p + 1080) && decide (3 ≤ cnt)

/-- Exit test (b): the scroll offset passed the page height. -/
def scrollCondB (h scroll : Nat) : Bool := decide (h ≤ scroll)

def autoScrollInit : ScrollState := ⟨0, 0, 0, []⟩

/-- The state updates of one loop body (selenium_downloader.py lines
129-147): scroll forward 800 px, then compare the page counts sampled
before and after the scroll. -/
def scrollStep (env : ScrollEnv) (t : Nat) (st : ScrollState) : ScrollState :=
  ⟨st.scroll_position + 800,
   if env.pagesBefore t < env.pagesAfter t then env.pagesAfter t
   else st.page_count,
   if env.pagesBefore t < env.pagesAfter t then 0
   else st.no_new_content_count + 1,
   st.trace
     ++ [if env.pagesBefore t < env.pagesAfter t then 0
         else st.no_new_content_count + 1]⟩

/-- The `while True` loop of `_auto_scroll_and_load`, fuel-indexed
(`none` = fuel exhausted before the loop exited). -/
def autoScrollRun (env : ScrollEnv) :
    Nat → Nat → ScrollState → Option ScrollResult
  | 0, _, _ => none
  | fuel + 1, t, st =>
    if env.stop t then
      some ⟨true, false, false, st.page_count, st.no_new_content_count,
        st.scroll_position, st.trace⟩
    else
      if scrollCondA (env.height t) (env.pos t)
            (scrollStep env t st).no_new_content_count
          || scrollCondB (env.height t) (scrollStep env t st).scroll_position then
        some ⟨false,
          scrollCondA (env.height t) (env.pos t)
            (scrollStep env t st).no_new_content_count,
          scrollCondB (env.height t) (scrollStep env t st).scroll_position,
          (scrollStep env t st).page_count,
          (scrollStep env t st).no_new_content_count,
          (scrollStep env t st).scroll_position,
          (scrollStep env t st).trace⟩
      else
        autoScrollRun env fuel (t + 1) (scrollStep env t st)

lemma scrollCondA_count {h p cnt : Nat} (hA : scrollCondA h p cnt = true) :
    3 ≤ cnt := by
  rw [scrollCondA, Bool.and_eq_true, decide_eq_true_eq, decide_eq_true_eq] at hA
  exact hA.2

lemma scrollStep_scroll (env : ScrollEnv) (t : Nat) (st : ScrollState) :
    (scrollStep env t st).scroll_position = st.scroll_position + 800 := rfl

lemma scrollStep_cnt_cases (env : ScrollEnv) (t : Nat) (st : ScrollState) :
    (scrollStep env t st).no_new_content_count = 0
    ∨ (scrollStep env t st).no_new_content_count
        = st.no_new_content_count + 1 := by
  by_cases hpa : env.pagesBefore t < env.pagesAfter t
  · exact Or.inl (by simp [scrollStep, hpa])
  · exact Or.inr (by simp [scrollStep, hpa])

lemma scrollStep_trace (env : ScrollEnv) (t : Nat) (st : ScrollState) :
    (scrollStep env t st).trace
      = st.trace ++ [(scrollStep env t st).no_new_content_count] := rfl

/-- Once the reported height is eventually the constant `H`, the loop
exits within `N + H + 1` iterations: the scroll offset grows by 800 every
iteration, so test (b) must fire if nothing else did. -/
lemma autoScrollRun_term (env : ScrollEnv) (N H : Nat)
    (hH : ∀ t, N ≤ t → env.height t = H) :
    ∀ (k t : Nat) (st : ScrollState), st.scroll_position = 800 * t →
      N + H ≤ t + k → autoScrollRun env (k + 1) t st ≠ none := by
  intro k
  induction k with
  | zero =>
    intro t st hscroll hbound
    rw [autoScrollRun]
    by_cases hstop : env.stop t = true
    · simp [hstop]
    · rw [Bool.not_eq_true] at hstop
      have hh : env.height t = H := hH t (by omega)
      have hHt : H ≤ t := by omega
      have hmul : t ≤ 800 * t := Nat.le_mul_of_pos_left t (by norm_num)
      have hcondB : scrollCondB (env.height t)
          (scrollStep env t st).scroll_position = true := by
        rw [scrollCondB, decide_eq_true_eq, hh, scrollStep_scroll, hscroll]
        omega
      simp [hstop, hcondB]
  | succ k ih =>
    intro t st hscroll hbound
    rw [autoScrollRun]
    by_cases hstop : env.stop t = true
    · simp [hstop]
    · rw [Bool.not_eq_true] at hstop
      simp only [hstop, Bool.false_eq_true, if_false]
      split
      · simp
      · refine ih (t + 1) _ ?_ (by omega)
        rw [scrollStep_scroll, hscroll]
        ring

/-- Exit through test (a) reports a stability counter of at least 3 (the
loop guard itself). -/
lemma autoScrollRun_condA_ge (env : ScrollEnv) :
    ∀ (fuel t : Nat) (st : ScrollState) (r : ScrollResult),
      autoScrollRun env fuel t st = some r → r.condA = true →
      3 ≤ r.no_new_content_count := by
  intro fuel
  induction fuel with
  | zero =>
    intro t st r h
    simp [autoScrollRun] at h
  | succ fuel ih =>
    intro t st r h hA
    rw [autoScrollRun] at h
    split at h
    · have h' := Option.some.inj h
      rw [← h'] at hA
      simp at hA
    · split at h
      · have h' := Option.some.inj h
        rw [← h'] at hA ⊢
        exact scrollCondA_count hA
      · exact ih (t + 1) (scrollStep env t st) r h hA

/-- Exit through test (a) means the counter passed through the value 3:
it starts below 3, moves by +1 or resets to 0, and ends at or above 3, so
some executed iteration recorded exactly 3. -/
lemma autoScrollRun_condA_trace (env : ScrollEnv) :
    ∀ (fuel t : Nat) (st : ScrollState) (r : ScrollResult),
      st.no_new_content_count < 3 ∨ 3 ∈ st.trace →
      autoScrollRun env fuel t st = some r → r.condA = true →
      3 ∈ r.trace := by
  intro fuel
  induction fuel with
  | zero =>
    intro t st r _ h
    simp [autoScrollRun] at h
  | succ fuel ih =>
    intro t st r hinv h hA
    rw [autoScrollRun] at h
    split at h
    · have h' := Option.some.inj h
      rw [← h'] at hA
      simp at hA
    · split at h
      · have h' := Option.some.inj h
        rw [← h'] at hA ⊢
        have hcc : 3 ≤ (scrollStep env t st).no_new_content_count :=
          scrollCondA_count hA
        show 3 ∈ (scrollStep env t st).trace
        rw [scrollStep_trace]
        rcases hinv with hlt | hmem
        · rcases scrollStep_cnt_cases env t st with h0 | h1
          · exfalso
            omega
          · have h3 : (scrollStep env t st).no_new_content_count = 3 := by
              omega
            rw [h3]
            simp
        · exact List.mem_append_left _ hmem
      · refine ih (t + 1) (scrollStep env t st) r ?_ h hA
        rcases hinv with hlt | hmem
        · rcases scrollStep_cnt_cases env t st with h0 | h1
          · exact Or.inl (by omega)
          · by_cases hc : (scrollStep env t st).no_new_content_count < 3
            · exact Or.inl hc
            · refine Or.inr ?_
              rw [scrollStep_trace]
              have h3 : (scrollStep env t st).no_new_content_count = 3 := by
                omega
              rw [h3]
              simp
        · exact Or.inr
            (by rw [scrollStep_trace]; exact List.mem_append_left _ hmem)

/-- C3: for any environment whose reported scrollable height is eventually
constant, the auto-scroll loop terminates in finitely many iterations; and
any run that exits through condition (a) has driven the no-new-content
counter up to exactly the value 3 at some iteration (and the final counter
is at least 3, the guard's threshold). -/
theorem auto_scroll_spec (env : ScrollEnv) :
    (∀ N H : Nat, (∀ t, N ≤ t → env.height t = H) →
      ∃ fuel r, autoScrollRun env fuel 0 autoScrollInit = some r)
    ∧ (∀ (fuel : Nat) (r : ScrollResult),
        autoScrollRun env fuel 0 autoScrollInit = some r → r.condA = true →
        3 ∈ r.trace ∧ 3 ≤ r.no_new_content_count) := by
  constructor
  · intro N H hH
    have h := autoScrollRun_term env N H hH (N + H) 0 autoScrollInit rfl
      (by omega)
    cases hr : autoScrollRun env (N + H + 1) 0 autoScrollInit with
    | none => exact absurd hr h
    | some r => exact ⟨N + H + 1, r, hr⟩
  · intro fuel r h hA
    exact ⟨autoScrollRun_condA_trace env fuel 0 _ r (Or.inl (by decide)) h hA,
      autoScrollRun_condA_ge env fuel 0 _ r h hA⟩

/-- A concrete browser: constant height 5000, reported offset 3920, no new
pages ever, no cancellation. -/
def scrollEnvW : ScrollEnv :=
  ⟨fun _ => false, fun _ => 0, fun _ => 0, fun _ => 5000, fun _ => 3920⟩

/-- The result of running `scrollEnvW`: exit through condition (a) at the
third iteration, counter exactly 3. -/
def scrollResW : ScrollResult := ⟨false, true, false, 0, 3, 2400, [1, 2, 3]⟩

/-- C3 witness: both halves of `auto_scroll_spec` at `scrollEnvW`. -/
theorem auto_scroll_spec_witness :
    (∃ fuel r, autoScrollRun scrollEnvW fuel 0 autoScrollInit = some r)
    ∧ (3 ∈ scrollResW.trace ∧ 3 ≤ scrollResW.no_new_content_count) := by
  constructor
  · exact (auto_scroll_spec scrollEnvW).1 0 5000 fun t ht => rfl
  · exact (auto_scroll_spec scrollEnvW).2 3 scrollResW (by decide) (by decide)

/-- C8: the loop polls the cancellation callback at the top of every
iteration, before the scroll increment; whenever it reports stop, the loop
exits at once with the scroll offset not incremented, returning the page
count accumulated so far, flagged as a user stop and not as an error. -/
theorem scroll_stop_spec (env : ScrollEnv) (fuel t : Nat) (st : ScrollState)
    (h : env.stop t = true) :
    autoScrollRun env (fuel + 1) t st
      = some ⟨true, false, false, st.page_count, st.no_new_content_count,
          st.scroll_position, st.trace⟩ := by
  rw [autoScrollRun, if_pos h]

/-- An environment whose cancellation callback always reports stop. -/
def scrollEnvStopW : ScrollEnv :=
  ⟨fun _ => true, fun _ => 0, fun _ => 0, fun _ => 0, fun _ => 0⟩

/-- C8 witness: `scroll_stop_spec` at a concrete mid-run state. -/
theorem scroll_stop_spec_witness :
    autoScrollRun scrollEnvStopW 6 0 ⟨100, 2, 1, [0]⟩
      = some ⟨true, false, false, 2, 1, 100, [0]⟩ :=
  scroll_stop_spec scrollEnvStopW 5 0 ⟨100, 2, 1, [0]⟩ rfl

/-! ## Page capturer: the per-page loop of `download_as_pdf`
(selenium_downloader.py lines 313-373) and `_create_blank_pdf` (lines
401-431).

Per attempt the loop first runs the CDP `Page.printToPDF` call and, if
that raises, the raster-screenshot fallback `_capture_as_image_pdf`; both
failing counts as one attempt.  The environment records which attempts
would succeed.  Each produced single-page PDF is an abstract `PdfPage`;
the blank placeholder written by `_create_blank_pdf` is `PdfPage.blank`. -/

/-- Per-page capture environment: success of the primary print-to-PDF and
of the raster fallback on each 0-based attempt. -/
structure CaptureEnv where
  primary : Nat → Bool
  fallback : Nat → Bool

/-- One single-page PDF file, identified by how it was produced. -/
inductive PdfPage where
  | printed (pageIdx attempt : Nat)
  | raster (pageIdx attempt : Nat)
  | blank
deriving DecidableEq

/-- One entry of `temp_pdfs`: the page content plus the placeholder flag. -/
structure PageArtifact where
  page : PdfPage
  isPlaceholder : Bool
deriving DecidableEq

/-- The retry loop `for attempt in range(max_retries)` for page `i`,
starting at attempt `k` with `rem` attempts remaining; returns the page
and the number of attempts consumed, or `none` when every attempt
failed. -/
def captureFrom (env : CaptureEnv) (i : Nat) : Nat → Nat → Option (PdfPage × Nat)
  | _, 0 => none
  | k, rem + 1 =>
    if env.primary k then some (PdfPage.printed i k, k + 1)
    else if env.fallback k then some (PdfPage.raster i k, k + 1)
    else captureFrom env i (k + 1) rem

/-- Capture of one page with `max_retries = 3`: a successful attempt ends
the loop; after exhaustion `_create_blank_pdf` writes the placeholder.
Returns the artifact appended to `temp_pdfs` and the attempts consumed. -/
def capturePage (env : CaptureEnv) (i : Nat) : PageArtifact × Nat :=
  match captureFrom env i 0 3 with
  | some (pg, a) => (⟨pg, false⟩, a)
  | none => (⟨PdfPage.blank, true⟩, 3)

/-- The `for i, page in enumerate(pages, 1)` loop (lines 313-373): poll the
cancellation callback per page, capture, and append exactly one artifact
per page; the Boolean records whether the run was stopped by the user. -/
def downloadCaptureLoop (stop : Nat → Bool) :
    List CaptureEnv → Nat → List PageArtifact × Bool
  | [], _ => ([], false)
  | e :: rest, i =>
    if stop i then ([], true)
    else
      ((capturePage e i).1 :: (downloadCaptureLoop stop rest (i + 1)).1,
       (downloadCaptureLoop stop rest (i + 1)).2)

lemma captureFrom_attempts (env : CaptureEnv) (i : Nat) :
    ∀ (rem k : Nat) (pg : PdfPage) (a : Nat),
      captureFrom env i k rem = some (pg, a) → a ≤ k + rem := by
  intro rem
  induction rem with
  | zero =>
    intro k pg a h
    simp [captureFrom] at h
  | succ rem ih =>
    intro k pg a h
    rw [captureFrom] at h
    split at h
    · obtain ⟨rfl, rfl⟩ := Prod.mk.injEq .. ▸ Option.some.inj h
      omega
    · split at h
      · obtain ⟨rfl, rfl⟩ := Prod.mk.injEq .. ▸ Option.some.inj h
        omega
      · have := ih (k + 1) pg a h
        omega

lemma captureFrom_allfail (env : CaptureEnv) (i : Nat) :
    ∀ (rem k : Nat), (∀ j, j < k + rem → k ≤ j →
      env.primary j = false ∧ env.fallback j = false) →
      captureFrom env i k rem = none := by
  intro rem
  induction rem with
  | zero =>
    intro k _
    rfl
  | succ rem ih =>
    intro k hfail
    have hk := hfail k (by omega) (le_refl k)
    rw [captureFrom, hk.1, hk.2]
    simp only [Bool.false_eq_true, if_false]
    exact ih (k + 1) fun j hj hkj => hfail j (by omega) (by omega)

/-- C4: per page at most 3 capture attempts are made; a page all of whose
attempts fail (primary and fallback alike) yields the placeholder artifact
— exactly one artifact, the blank single-page PDF, with the placeholder
flag set — and an unstopped run appends exactly one artifact per page, in
page order, so one unrenderable page never aborts the run. -/
theorem capture_retry_spec :
    (∀ (env : CaptureEnv) (i : Nat), (capturePage env i).2 ≤ 3)
    ∧ (∀ (env : CaptureEnv) (i : Nat),
        (∀ k, k < 3 → env.primary k = false ∧ env.fallback k = false) →
        (capturePage env i).1 = ⟨PdfPage.blank, true⟩
        ∧ (capturePage env i).2 = 3)
    ∧ (∀ (stop : Nat → Bool) (envs : List CaptureEnv) (i : Nat),
        (downloadCaptureLoop stop envs i).2 = false →
        (downloadCaptureLoop stop envs i).1.length = envs.length
        ∧ ∀ j : Nat, (downloadCaptureLoop stop envs i).1[j]?
            = (envs[j]?).map fun e => (capturePage e (i + j)).1) := by
  refine ⟨?_, ?_, ?_⟩
  · intro env i
    rw [capturePage]
    cases hc : captureFrom env i 0 3 with
    | none => simp
    | some pa =>
      cases pa with
      | mk pg a =>
        have := captureFrom_attempts env i 3 0 pg a hc
        simpa using this
  · intro env i hfail
    have hnone : captureFrom env i 0 3 = none :=
      captureFrom_allfail env i 3 0 fun j hj _ => hfail j (by omega)
    rw [capturePage, hnone]
    exact ⟨rfl, rfl⟩
  · intro stop envs
    induction envs with
    | nil =>
      intro i _
      exact ⟨rfl, fun j => rfl⟩
    | cons e rest ih =>
      intro i hns
      rw [downloadCaptureLoop] at hns ⊢
      split at hns
      · simp at hns
      · split
        · simp_all
        · obtain ⟨hlen, hidx⟩ := ih (i + 1) hns
          refine ⟨by simpa using hlen, ?_⟩
          intro j
          cases j with
          | zero => simp
          | succ j =>
            have := hidx j
            simpa [Nat.add_assoc, Nat.add_comm 1 j] using this

/-- A page environment whose every attempt fails. -/
def captureEnvFail : CaptureEnv := ⟨fun _ => false, fun _ => false⟩

/-- C4 witness: `capture_retry_spec` at a concrete all-failing page inside
a one-page unstopped run. -/
theorem capture_retry_spec_witness :
    (capturePage captureEnvFail 1).2 ≤ 3
    ∧ (capturePage captureEnvFail 1).1 = ⟨PdfPage.blank, true⟩
    ∧ (downloadCaptureLoop (fun _ => false) [captureEnvFail] 0).1.length = 1 := by
  refine ⟨capture_retry_spec.1 captureEnvFail 1, ?_, ?_⟩
  · exact (capture_retry_spec.2.1 captureEnvFail 1 fun k hk => ⟨rfl, rfl⟩).1
  · exact (capture_retry_spec.2.2 (fun _ => false) [captureEnvFail] 0 rfl).1

/-! ## Assembler: `_merge_pdfs` (selenium_downloader.py lines 433-459).

`PdfMerger.append` concatenates the pages of each input file onto the
output, in the order the files are given.  Every `temp_pdfs` entry is a
single-page file: `Page.printToPDF` is called with `pageRanges: "1"`, the
raster fallback saves one image as a one-page PDF, and the placeholder is
a one-page document. -/

/-- `PdfMerger`: start empty, `merger.append pdf` for each input file. -/
def mergePdfs (files : List (List PdfPage)) : List PdfPage :=
  files.foldl (fun acc f => acc ++ f) []

/-- The single-page file on disk behind one `temp_pdfs` entry. -/
def artifactPdf (a : PageArtifact) : List PdfPage := [a.page]

lemma foldl_append_eq (files : List (List PdfPage)) :
    ∀ acc : List PdfPage,
      files.foldl (fun acc f => acc ++ f) acc = acc ++ files.flatten := by
  induction files with
  | nil =>
    intro acc
    simp [mergePdfs]
  | cons f fs ih =>
    intro acc
    rw [List.foldl_cons, ih]
    simp

/-- C5: the merged document carries exactly one page per input artifact —
none dropped, none duplicated — in input order, whatever the placement of
placeholders: position `j` of the output is exactly the page of artifact
`j`. -/
theorem merge_preserves_pages (arts : List PageArtifact) :
    mergePdfs (arts.map artifactPdf) = arts.map (fun a => a.page)
    ∧ (mergePdfs (arts.map artifactPdf)).length = arts.length
    ∧ ∀ j : Nat, (mergePdfs (arts.map artifactPdf))[j]?
        = (arts[j]?).map fun a => a.page := by
  have key : mergePdfs (arts.map artifactPdf) = arts.map fun a => a.page := by
    rw [mergePdfs, foldl_append_eq, List.nil_append]
    induction arts with
    | nil => rfl
    | cons a as ih => simp [artifactPdf, ih]
  refine ⟨key, ?_, fun j => ?_⟩
  · rw [key]
    exact List.length_map _ _
  · rw [key]
    simp

/-! ## Merge outcome and cleanup: `download_as_pdf`
(selenium_downloader.py lines 375-399) with `_merge_pdfs` lines 457-459.

`_merge_pdfs` re-raises on failure, so the cleanup loop after it is
skipped and the outer `except` returns `False` with every `temp_pdfs`
file still on disk.  On success each temp file is removed inside
`try/except: pass`, then the scratch directory likewise, and the function
returns `True` regardless of removal failures. -/

/-- The cleanup loop: `os.remove` wrapped in `try/except: pass` for each
temp file; the removal of the `i`-th file succeeds iff `removeOk i`.
Returns the files still on disk. -/
def cleanupFiles (removeOk : Nat → Bool) : List String → Nat → List String
  | [], _ => []
  | f :: fs, i =>
    if removeOk i then cleanupFiles removeOk fs (i + 1)
    else f :: cleanupFiles removeOk fs (i + 1)

/-- Outcome of the post-capture phase: the value `download_as_pdf`
returns, the temp files still on disk, and whether the scratch directory
is still on disk. -/
structure FinishOutcome where
  success : Bool
  remainingFiles : List String
  tempDirRemains : Bool
deriving DecidableEq

/-- Lines 375-399: failing merge → raise past the cleanup, outer handler
returns `False`, nothing deleted; successful merge → best-effort cleanup,
return `True`. -/
def finishPhase (mergeOk : Bool) (removeOk : Nat → Bool) (rmdirOk : Bool)
    (tempFiles : List String) : FinishOutcome :=
  if mergeOk then
    ⟨true, cleanupFiles removeOk tempFiles 0, !rmdirOk⟩
  else
    ⟨false, tempFiles, true⟩

lemma cleanupFiles_allOk (removeOk : Nat → Bool)
    (h : ∀ i, removeOk i = true) :
    ∀ (fs : List String) (i : Nat), cleanupFiles removeOk fs i = [] := by
  intro fs
  induction fs with
  | nil =>
    intro i
    rfl
  | cons f fs ih =>
    intro i
    simp [cleanupFiles, h i, ih]

/-- C6: a failed merge aborts the run (`False`) and preserves every
per-page artifact and the scratch directory; a successful merge reports
success whatever the removal outcomes (removal failures are non-fatal),
and when the removals succeed all intermediate artifacts are gone. -/
theorem merge_cleanup_spec (removeOk : Nat → Bool) (rmdirOk : Bool)
    (tempFiles : List String) :
    finishPhase false removeOk rmdirOk tempFiles = ⟨false, tempFiles, true⟩
    ∧ (finishPhase true removeOk rmdirOk tempFiles).success = true
    ∧ ((∀ i, removeOk i = true) →
        (finishPhase true removeOk rmdirOk tempFiles).remainingFiles = []) := by
  refine ⟨rfl, rfl, fun h => ?_⟩
  show cleanupFiles removeOk tempFiles 0 = []
  exact cleanupFiles_allOk removeOk h tempFiles 0

/-- C6 witness: `merge_cleanup_spec` at concrete removal outcomes. -/
theorem merge_cleanup_spec_witness :
    finishPhase false (fun _ => true) true ["page_001.pdf", "page_002.pdf"]
      = ⟨false, ["page_001.pdf", "page_002.pdf"], true⟩
    ∧ (finishPhase true (fun _ => false) false ["page_001.pdf"]).success = true
    ∧ (finishPhase true (fun _ => true) true ["page_001.pdf"]).remainingFiles
        = [] :=
  ⟨(merge_cleanup_spec (fun _ => true) true _).1,
   (merge_cleanup_spec (fun _ => false) false _).2.1,
   (merge_cleanup_spec (fun _ => true) true _).2.2 fun _ => rfl⟩
